import Mathlib

/-!
Shallow embedding of the message-reference converters (`src/utils/converter.py`)
and the locale extension (`src/emote_collector/extensions/locale.py`) of the
repository, together with theorems settling the specification claims about them.

Conventions of the embedding:
* message streams are Lean lists in the platform's reverse-chronological order
  (most recent first); as on the platform, the channel stream begins with the
  invoking message;
* the framework's `commands.BadArgument` is `ConvError`, carrying the message
  text the source raises;
* fallible operations return `Except`;
* Python truthiness (`x or y`) is modelled explicitly where the source uses it
  (`pythonOrString`, `localeUserKey`);
* the persistent `locales` table is a list of rows, and each SQL statement of
  the source is translated to an explicit list operation;
* pieces of the repository that are not under `src/` (`utils.get_message_by_offset`,
  `utils.SMALLEST_SNOWFLAKE`, `utils.emote.RE_CUSTOM_EMOTE`, Python's `int`
  parser and `str.casefold`, the framework's member converter) are modelled from
  the spec, each marked in its doc comment.
-/

namespace EmoteBot

/-- A converter failure: the framework's `BadArgument`, carrying the message
text that the source raises. -/
structure ConvError where
  msg : String
deriving DecidableEq

/-- A platform member/user; the platform compares members by identifier, so the
identifier is the whole of the model. -/
structure Member where
  id : Nat
deriving DecidableEq

/-- One piece of a message's text content: plain text, or a custom-emote token
(the platform markup matched by `utils.emote.RE_CUSTOM_EMOTE`, which is not
under `src/`; the token is modelled structurally, its name capture group as the
`name` field). -/
inductive ContentPiece
  | text (s : List Char)
  | customEmote (animated : Bool) (name : List Char) (eid : Nat)
deriving DecidableEq

/-- A channel message: identifier, author, content. -/
structure Msg where
  id : Nat
  author : Member
  content : List ContentPiece
deriving DecidableEq

/-- Outcome of the platform's fetch-by-identifier point operation
(`channel.get_message`): found, `discord.NotFound`, or `discord.Forbidden`. -/
inductive FetchResult
  | found (m : Msg)
  | notFound
  | forbidden

/-- The invocation context a converter receives: the invoking message, its
author, the channel's reverse-chronological stream (`channel.history()`, whose
head is the invoking message), and the platform's fetch-by-identifier
operation. -/
structure Context where
  message : Msg
  author : Member
  history : List Msg
  fetchById : Int → FetchResult

/-- The raw textual argument, carried together with its platform-level parses,
which the source obtains from external collaborators: `intBase0` is the result
of Python's `int(argument, base=0)`, `intVal` of `int(argument)`, `member` of
the framework's member converter, and `text` is the raw text itself. -/
structure Argument where
  intBase0 : Option Int
  intVal : Option Int
  member : Option Member
  text : List Char

/-- Modelled from the platform: Python's `str.casefold`, as per-character
lowercasing. -/
def casefold (s : List Char) : List Char := s.map Char.toLower

/-- The source's `emote_to_name` replacement: a custom-emote token is replaced
by just its name capture group; plain text is untouched. -/
def emoteToName : ContentPiece → List Char
  | .text s => s
  | .customEmote _ name _ => name

/-- The source's `normalize`: substitute every custom-emote token by its name,
then case-fold the whole content. -/
def normalize (content : List ContentPiece) : List Char :=
  casefold ((content.map emoteToName).flatten)

/-- Whether `p` is a prefix of `s`, as an executable scan. -/
def startsWithChars : List Char → List Char → Bool
  | [], _ => true
  | _ :: _, [] => false
  | p :: ps, c :: cs => p == c && startsWithChars ps cs

/-- Python's substring containment `pat in s`, as an executable scan. -/
def containsSub (pat : List Char) : List Char → Bool
  | [] => startsWithChars pat []
  | c :: cs => startsWithChars pat (c :: cs) || containsSub pat cs

/-- Modelled from the spec: `utils.get_message_by_offset(channel, index)` (the
function lives in `utils`, which is not under `src/`). Per the spec it returns
the message at backward position `index` of the channel's reverse-chronological
stream starting just before the invoking message; since the channel stream
(`history`) begins with the invoking message, that stream is `history.tail`.
It fails with NotFound when the stream is exhausted; an index outside the
stream (including the negative indices the inverted source branch feeds it) is
modelled as the same NotFound failure. -/
def getMessageByOffset (history : List Msg) (index : Int) : Except ConvError Msg :=
  if h : 0 ≤ index ∧ index.toNat < history.tail.length then
    .ok (history.tail.get ⟨index.toNat, h.2⟩)
  else
    .error ⟨"Message not found."⟩

/-- `OffsetMessage.convert` (src/utils/converter.py:11-22), translated exactly
as written: parse `int(offset, base=0)`, subtract 1, and then — as in the
source — perform the backward lookup when the result is negative and raise
`BadArgument` otherwise. -/
def offsetMessageConvert (ctx : Context) (arg : Argument) : Except ConvError Msg :=
  match arg.intBase0 with
  | none => .error ⟨"Not a valid integer."⟩
  | some n =>
    let offset := n - 1
    if offset < 0 then getMessageByOffset ctx.history offset
    else .error ⟨"Not a message offset."⟩

/-- `_validate_snowflake` (src/utils/converter.py:24-33); `smallestSnowflake`
stands for `utils.SMALLEST_SNOWFLAKE`, a fixed numeric floor whose value is not
under `src/`, so it is carried as a parameter. -/
def validateSnowflake (smallestSnowflake : Nat) (arg : Argument) : Except ConvError Int :=
  match arg.intVal with
  | none => .error ⟨"Not a valid integer."⟩
  | some id =>
    if id < (smallestSnowflake : Int) then .error ⟨"Not a valid message ID."⟩
    else .ok id

/-- `IDMessage.convert` (src/utils/converter.py:35-47): validate the snowflake,
fetch directly by identifier, and translate the platform's NotFound/Forbidden
into the two `BadArgument` messages of the source. -/
def idMessageConvert (smallestSnowflake : Nat) (ctx : Context) (arg : Argument) :
    Except ConvError Msg :=
  match validateSnowflake smallestSnowflake arg with
  | .error e => .error e
  | .ok id =>
    match ctx.fetchById id with
    | .found m => .ok m
    | .notFound => .error ⟨"Message not found! Make sure your message ID is correct."⟩
    | .forbidden =>
        .error ⟨"Permission denied! Make sure the bot has permission to read that message."⟩

/-- `_search_for_message` (src/utils/converter.py:49-54): walk the stream most
recent first, return the first message satisfying the predicate, raise
`BadArgument` when the stream is exhausted. -/
def searchForMessage (p : Msg → Bool) : List Msg → Except ConvError Msg
  | [] => .error ⟨"Message not found."⟩
  | m :: rest => if p m then .ok m else searchForMessage p rest

/-- `MemberMessage.convert` (src/utils/converter.py:56-68). The source binds
the resolved member (`m = await cls._member_converter.convert(...)`) but its
predicate then tests `message.author == context.author`, never using `m`; the
translation preserves that exactly. A failed member resolution raises the
framework's `BadArgument`. -/
def memberMessageConvert (ctx : Context) (arg : Argument) : Except ConvError Msg :=
  match arg.member with
  | none => .error ⟨"Member not found."⟩
  | some m =>
    let _ := m
    searchForMessage
      (fun message => message.id != ctx.message.id && decide (message.author = ctx.author))
      ctx.history

/-- `KeywordMessage.convert` (src/utils/converter.py:70-82): first message,
other than the invoking one, whose normalized content contains the case-folded
argument as a substring. -/
def keywordMessageConvert (ctx : Context) (arg : Argument) : Except ConvError Msg :=
  searchForMessage
    (fun message =>
      message.id != ctx.message.id &&
      containsSub (casefold arg.text) (normalize message.content))
    ctx.history

/-- The combined `Message` converter (src/utils/converter.py:84), a
`typing.Union` that tries the four strategies in their declared order, falling
to the next on any `BadArgument`; total failure is modelled as propagating the
last strategy's error. -/
def messageConvert (smallestSnowflake : Nat) (ctx : Context) (arg : Argument) :
    Except ConvError Msg :=
  match offsetMessageConvert ctx arg with
  | .ok m => .ok m
  | .error _ =>
    match idMessageConvert smallestSnowflake ctx arg with
    | .ok m => .ok m
    | .error _ =>
      match memberMessageConvert ctx arg with
      | .ok m => .ok m
      | .error _ => keywordMessageConvert ctx arg

/-- A row of the `locales` table: optional user, channel and guild keys and the
locale value. -/
structure LocaleRow where
  user : Option Nat
  channel : Option Nat
  guild : Option Nat
  locale : String
deriving DecidableEq

/-- The scalar subquery `SELECT locale FROM locales WHERE "user" = $1` of
`user_channel_or_guild_locale` (locale.py:141-159): the locale of the row whose
user key equals the argument, if any. -/
def fetchUserLocale (rows : List LocaleRow) (user : Nat) : Option String :=
  (rows.find? fun r => decide (r.user = some user)).map LocaleRow.locale

/-- The scalar subquery `SELECT locale FROM locales WHERE channel = $2`; with a
NULL parameter the SQL comparison matches no row. -/
def fetchChannelLocale (rows : List LocaleRow) (channel : Option Nat) : Option String :=
  match channel with
  | none => none
  | some c => (rows.find? fun r => decide (r.channel = some c)).map LocaleRow.locale

/-- The scalar subquery selecting the guild-default row (`guild = $3 AND
channel IS NULL AND "user" IS NULL`); with a NULL parameter it matches no
row. -/
def fetchGuildLocale (rows : List LocaleRow) (guild : Option Nat) : Option String :=
  match guild with
  | none => none
  | some g =>
    (rows.find? fun r =>
        decide (r.guild = some g ∧ r.channel = none ∧ r.user = none)).map LocaleRow.locale

/-- `Locales.user_channel_or_guild_locale` (locale.py:141-159): the SQL
`COALESCE` of the three scoped lookups, highest precedence first. -/
def userChannelOrGuildLocale (rows : List LocaleRow) (user : Nat)
    (channel guild : Option Nat) : Option String :=
  match fetchUserLocale rows user with
  | some l => some l
  | none =>
    match fetchChannelLocale rows channel with
    | some l => some l
    | none => fetchGuildLocale rows guild

/-- Python's `x or default` on an optional string: `None` and the empty string
are falsy, anything else is returned as is. -/
def pythonOrString : Option String → String → String
  | none, d => d
  | some s, d => if s = "" then d else s

/-- The resolution contract of the spec (§4.1), as the source realises it in
`Locales.locale` (locale.py:139): the coalesced three-tier lookup, with the
configured default locale substituted via Python `or` when the lookup yields
nothing. -/
def resolve (rows : List LocaleRow) (defaultLocale : String) (user : Nat)
    (channel guild : Option Nat) : String :=
  pythonOrString (userChannelOrGuildLocale rows user channel guild) defaultLocale

/-- The fields of an incoming platform message that `Locales.locale`
(locale.py:129-139) reads: `message.author.id`, `message.webhook_id`,
`message.channel.id` and `message.guild` (absent in direct messages). -/
structure IncomingMessage where
  authorId : Nat
  webhookId : Option Nat
  channelId : Nat
  guildId : Option Nat
deriving DecidableEq

/-- The user-scope key chosen by `Locales.locale` (locale.py:130):
`message.webhook_id or message.author.id`, with Python truthiness — a missing
or zero webhook identifier falls back to the author's identifier. -/
def localeUserKey (m : IncomingMessage) : Nat :=
  match m.webhookId with
  | none => m.authorId
  | some w => if w = 0 then m.authorId else w

/-- `Locales.locale` (locale.py:129-139): choose the user key, take channel and
guild keys only when the message is in a guild, resolve with default
substitution. -/
def resolveLocale (rows : List LocaleRow) (defaultLocale : String)
    (m : IncomingMessage) : String :=
  let user := localeUserKey m
  let channel : Option Nat :=
    match m.guildId with
    | none => none
    | some _ => some m.channelId
  resolve rows defaultLocale user channel m.guildId

/-- `Locales.set_user_locale` (locale.py:208-214): `INSERT ... ON CONFLICT
("user") DO UPDATE SET locale = EXCLUDED.locale` — update the row keyed by the
user if present, else append a fresh user-scoped row. -/
def set_user_locale (rows : List LocaleRow) (user : Nat) (locale : String) :
    List LocaleRow :=
  if rows.any fun r => decide (r.user = some user) then
    rows.map fun r =>
      if decide (r.user = some user) then ⟨r.user, r.channel, r.guild, locale⟩ else r
  else
    rows ++ [⟨some user, none, none, locale⟩]

/-- `Locales.set_channel_locale` (locale.py:200-206): `INSERT ... ON CONFLICT
(guild, channel) DO UPDATE SET locale = EXCLUDED.locale`. The conflict target
of the source is the pair `(guild, channel)`, so the translation upserts keyed
by that pair (charitably assuming a matching unique index; under the spec's
channel-unique schema the SQL statement itself would be rejected). -/
def set_channel_locale (rows : List LocaleRow) (guild channel : Nat) (locale : String) :
    List LocaleRow :=
  if rows.any fun r => decide (r.guild = some guild ∧ r.channel = some channel) then
    rows.map fun r =>
      if decide (r.guild = some guild ∧ r.channel = some channel) then
        ⟨r.user, r.channel, r.guild, locale⟩
      else r
  else
    rows ++ [⟨none, some channel, some guild, locale⟩]

/-- Whether a row is the guild-default row of `g`: `guild = g AND channel IS
NULL AND "user" IS NULL`. -/
def isGuildDefaultRow (g : Nat) (r : LocaleRow) : Bool :=
  decide (r.guild = some g ∧ r.channel = none ∧ r.user = none)

/-- `Locales.set_guild_locale` (locale.py:186-198): delete every guild-default
row of the guild, then insert a fresh one. -/
def set_guild_locale (rows : List LocaleRow) (guild : Nat) (locale : String) :
    List LocaleRow :=
  (rows.filter fun r => !(isGuildDefaultRow guild r)) ++ [⟨none, none, some guild, locale⟩]

/-- `Locales.delete_user_account` (locale.py:216-217): `DELETE FROM locales
WHERE "user" = $1`. -/
def delete_user_account (rows : List LocaleRow) (user : Nat) : List LocaleRow :=
  rows.filter fun r => !(decide (r.user = some user))

/-- The failures the `locale set` command can surface. -/
inductive CommandError
  | missingPermissions
deriving DecidableEq

/-- `Locales.set_locale_command` (locale.py:81-101): with no channel argument,
set the caller's user locale; with a channel, raise `MissingPermissions` when
`not manage_messages or not is_owner` (as written in the source), else upsert
the channel row. An error means the command aborts before any write. -/
def set_locale_command (rows : List LocaleRow) (authorId guildId : Nat)
    (channel : Option Nat) (manageMessages isOwner : Bool) (locale : String) :
    Except CommandError (List LocaleRow) :=
  match channel with
  | none => .ok (set_user_locale rows authorId locale)
  | some ch =>
    if !manageMessages || !isOwner then .error .missingPermissions
    else .ok (set_channel_locale rows guildId ch locale)

/-! Concrete fixtures used by the evaluation theorems and witnesses. -/

/-- A member, author of the invoking message in the fixtures. -/
def userA : Member := ⟨1⟩

/-- A second member. -/
def userB : Member := ⟨2⟩

/-- The invoking message of the fixtures (head of every fixture stream). -/
def msgInv : Msg := ⟨100, userA, []⟩

/-- The message immediately before the invocation, authored by `userB`. -/
def msgByB : Msg := ⟨99, userB, []⟩

/-- An older message authored by `userA`. -/
def msgByA : Msg := ⟨98, userA, []⟩

/-- A message whose content is the plain text `hi`. -/
def msgHi : Msg := ⟨99, userB, [.text ['h', 'i']]⟩

/-- A message whose content is the plain text `yo`. -/
def msgYo : Msg := ⟨98, userB, [.text ['y', 'o']]⟩

/-- A message whose content is a custom-emote token named `Blob` followed by
the plain text ` wave`. -/
def msgEmote : Msg := ⟨99, userB, [.customEmote false ['B', 'l', 'o', 'b'] 555,
  .text [' ', 'w', 'a', 'v', 'e']]⟩

/-- A message reachable only by direct fetch in the fixtures. -/
def msgFetched : Msg := ⟨4194304, ⟨3⟩, []⟩

/-- Context for the offset fixtures: stream `[msgInv, msgByB]`. -/
def ctxOffset : Context := ⟨msgInv, userA, [msgInv, msgByB], fun _ => .notFound⟩

/-- Context for the member fixture: stream `[msgInv, msgByB, msgByA]`. -/
def ctxMember : Context := ⟨msgInv, userA, [msgInv, msgByB, msgByA], fun _ => .notFound⟩

/-- Context for the small-integer fixture: stream `[msgInv, msgHi, msgYo]`. -/
def ctxSmallInt : Context := ⟨msgInv, userA, [msgInv, msgHi, msgYo], fun _ => .notFound⟩

/-- Context whose fetch-by-identifier finds `msgFetched` at its identifier. -/
def ctxIdFetch : Context :=
  ⟨msgInv, userA, [msgInv], fun n => if n = 4194304 then .found msgFetched else .notFound⟩

/-- Context for the keyword fixture: stream `[msgInv, msgEmote]`. -/
def ctxKeyword : Context := ⟨msgInv, userA, [msgInv, msgEmote], fun _ => .notFound⟩

/-- The argument `1`. -/
def argOne : Argument := ⟨some 1, some 1, none, ['1']⟩

/-- The argument `0`. -/
def argZero : Argument := ⟨some 0, some 0, none, ['0']⟩

/-- The argument `2`. -/
def argTwo : Argument := ⟨some 2, some 2, none, ['2']⟩

/-- The argument `4194304`, at the fixture snowflake floor. -/
def argBig : Argument := ⟨some 4194304, some 4194304, none, ['4']⟩

/-- A mention argument resolving to `userB`. -/
def argMemberB : Argument := ⟨none, none, some userB, ['@', 'b']⟩

/-- The keyword argument `BLOB` (upper case, non-numeric, not a member). -/
def argBlob : Argument := ⟨none, none, none, ['B', 'L', 'O', 'B']⟩

/-- A store holding a user row for 1, a channel row for 2 and a guild-default
row for 3. -/
def rowsLoc : List LocaleRow :=
  [⟨some 1, none, none, "de_DE"⟩, ⟨none, some 2, some 3, "es_ES"⟩,
   ⟨none, none, some 3, "hu_HU"⟩]

/-- A store with a user row for 7 and a channel row whose channel and guild
identifiers numerically coincide with that user. -/
def rowsUser7 : List LocaleRow :=
  [⟨some 7, none, none, "de_DE"⟩, ⟨none, some 7, some 7, "es_ES"⟩]

/-! Helper lemmas. -/

/-- `find?` returns the unique element satisfying the predicate. -/
theorem find?_eq_some_of_unique {α : Type} (p : α → Bool) (l : List α) (a : α)
    (ha : a ∈ l) (hpa : p a = true) (huniq : ∀ b ∈ l, p b = true → b = a) :
    l.find? p = some a := by
  induction l with
  | nil => cases ha
  | cons x xs ih =>
    by_cases hx : p x = true
    · have hxa : x = a := huniq x (List.mem_cons_self x xs) hx
      rw [List.find?_cons_of_pos _ hx, hxa]
    · rw [List.find?_cons_of_neg _ hx]
      have hax : a ∈ xs := by
        rcases List.mem_cons.mp ha with h | h
        · exact absurd (h ▸ hpa) hx
        · exact h
      exact ih hax fun b hb hpb => huniq b (List.mem_cons_of_mem _ hb) hpb

/-- `find?` misses when nothing satisfies the predicate. -/
theorem find?_eq_none_of_all {α : Type} (p : α → Bool) (l : List α)
    (h : ∀ a ∈ l, p a = false) : l.find? p = none := by
  induction l with
  | nil => rfl
  | cons x xs ih =>
    rw [List.find?_cons_of_neg]
    · exact ih fun a ha => h a (List.mem_cons_of_mem _ ha)
    · simp [h x (List.mem_cons_self x xs)]

/-- `searchForMessage` succeeds exactly on the first stream message satisfying
the predicate, everything more recent failing it. -/
theorem searchForMessage_ok_iff (p : Msg → Bool) (l : List Msg) (m : Msg) :
    searchForMessage p l = .ok m ↔
      ∃ l1 l2, l = l1 ++ m :: l2 ∧ p m = true ∧ ∀ x ∈ l1, p x = false := by
  induction l with
  | nil =>
    constructor
    · intro h; exact absurd h (by simp [searchForMessage])
    · rintro ⟨l1, l2, heq, -, -⟩
      exact absurd heq (by simp)
  | cons a as ih =>
    by_cases hp : p a = true
    · rw [show searchForMessage p (a :: as) = .ok a by simp [searchForMessage, hp]]
      constructor
      · intro h
        injection h with h
        subst h
        exact ⟨[], as, rfl, hp, by simp⟩
      · rintro ⟨l1, l2, heq, hpm, hall⟩
        cases l1 with
        | nil =>
          simp only [List.nil_append, List.cons.injEq] at heq
          rw [heq.1]
        | cons b bs =>
          simp only [List.cons_append, List.cons.injEq] at heq
          have hfb : p b = false := hall b (List.mem_cons_self b bs)
          rw [← heq.1] at hfb
          rw [hp] at hfb
          exact Bool.noConfusion hfb
    · have hp' : p a = false := by
        cases hpa : p a
        · rfl
        · exact absurd hpa hp
      rw [show searchForMessage p (a :: as) = searchForMessage p as by
        simp [searchForMessage, hp']]
      rw [ih]
      constructor
      · rintro ⟨l1, l2, heq, hpm, hall⟩
        refine ⟨a :: l1, l2, by rw [heq, List.cons_append], hpm, ?_⟩
        intro x hx
        rcases List.mem_cons.mp hx with h | h
        · rw [h]; exact hp'
        · exact hall x h
      · rintro ⟨l1, l2, heq, hpm, hall⟩
        cases l1 with
        | nil =>
          simp only [List.nil_append, List.cons.injEq] at heq
          rw [heq.1] at hp'
          rw [hpm] at hp'
          exact Bool.noConfusion hp'
        | cons b bs =>
          simp only [List.cons_append, List.cons.injEq] at heq
          refine ⟨bs, l2, heq.2, hpm, ?_⟩
          intro x hx
          exact hall x (List.mem_cons_of_mem _ hx)

/-- `searchForMessage` fails (with its NotFound message) exactly when no stream
message satisfies the predicate. -/
theorem searchForMessage_error_iff (p : Msg → Bool) (l : List Msg) :
    searchForMessage p l = .error ⟨"Message not found."⟩ ↔ ∀ x ∈ l, p x = false := by
  induction l with
  | nil => simp [searchForMessage]
  | cons a as ih =>
    by_cases hp : p a = true
    · simp [searchForMessage, hp]
    · have hp' : p a = false := by
        cases hpa : p a
        · rfl
        · exact absurd hpa hp
      simp [searchForMessage, hp', ih]

/-! Claim theorems. -/

/-- C1: the offset strategy is claimed to return, for a strictly positive
integer argument N, the message at backward position N-1 of the stream just
before the invocation, and to fail with InvalidArgument for N ≤ 0. The code
inverts that branch: argument `1` raises `BadArgument "Not a message offset."`,
while argument `0` performs the backward lookup (failing NotFound); the third
conjunct evaluates the lookup the claim expected for argument `1`. -/
theorem offset_strategy_inverted_eval :
    offsetMessageConvert ctxOffset argOne = .error ⟨"Not a message offset."⟩ ∧
    offsetMessageConvert ctxOffset argZero = .error ⟨"Message not found."⟩ ∧
    getMessageByOffset ctxOffset.history 0 = .ok msgByB :=
  ⟨rfl, rfl, rfl⟩

/-- C2: the member strategy is claimed to return the most recent message
authored by the resolved member. Evaluated at a stream whose most recent
non-invoking message is authored by the requested member `userB`, the code
instead returns the older `msgByA` authored by the invoking author, because its
predicate compares against `context.author` and never uses the resolved
member. -/
theorem member_strategy_ignores_member_eval :
    memberMessageConvert ctxMember argMemberB = .ok msgByA ∧
    msgByA.author = userA ∧ msgByB.author = userB ∧ userA ≠ userB ∧
    msgByB ∈ ctxMember.history :=
  ⟨rfl, rfl, rfl, by decide, by simp [ctxMember]⟩

/-- C5: set_channel_locale is claimed to be an upsert keyed by channel alone.
The source's conflict target is the pair (guild, channel): two calls for
channel 5 with differing guild arguments leave two rows for channel 5,
violating the claimed one-row-per-channel invariant. -/
theorem set_channel_locale_conflict_key_eval :
    (set_channel_locale (set_channel_locale [] 1 5 "en_US") 2 5 "de_DE").filter
        (fun r => decide (r.channel = some 5)) =
      [⟨none, some 5, some 1, "en_US"⟩, ⟨none, some 5, some 2, "de_DE"⟩] :=
  rfl

/-- C7: small integers are claimed to be interpreted as offsets because the
offset strategy is tried first. With the snowflake floor at 4194304, the
argument `2` is rejected by the inverted offset strategy, rejected by the
identifier strategy (below the floor), matches no member and no keyword, so
resolution fails — while the backward lookup the claim expected (second
conjunct) would return `msgYo`. The third conjunct evaluates the half of the
claim the code does satisfy: a numeric argument at the floor is fetched
directly by identifier. -/
theorem small_integer_falls_through_eval :
    messageConvert 4194304 ctxSmallInt argTwo = .error ⟨"Message not found."⟩ ∧
    getMessageByOffset ctxSmallInt.history 1 = .ok msgYo ∧
    messageConvert 4194304 ctxIdFetch argBig = .ok msgFetched :=
  ⟨rfl, rfl, rfl⟩

/-- C6: set_guild_default_locale leaves exactly one guild-default row for the
guild, holding the most recently set locale, from any prior store state. -/
theorem set_guild_locale_exactly_one (rows : List LocaleRow) (g : Nat) (loc : String) :
    (set_guild_locale rows g loc).filter (isGuildDefaultRow g) =
      [⟨none, none, some g, loc⟩] := by
  unfold set_guild_locale
  rw [List.filter_append]
  have h1 : (rows.filter fun r => !(isGuildDefaultRow g r)).filter (isGuildDefaultRow g)
      = [] := by
    induction rows with
    | nil => rfl
    | cons x xs ih =>
      cases hx : isGuildDefaultRow g x <;> simp [List.filter_cons, hx, ih]
  rw [h1]
  simp [List.filter_cons, isGuildDefaultRow]

/-- C9: delete_user_data removes exactly the rows keyed by the given user:
afterwards no row carries that user key, and the rows with a null user key
(channel-scoped and guild-default rows, including ones whose identifiers
numerically coincide with the user's) are exactly those of the original
store. -/
theorem delete_user_data_frame (rows : List LocaleRow) (u : Nat) :
    (∀ r ∈ delete_user_account rows u, r.user ≠ some u) ∧
    (delete_user_account rows u).filter (fun r => r.user.isNone) =
      rows.filter (fun r => r.user.isNone) := by
  constructor
  · intro r hr
    have h := (List.mem_filter.mp hr).2
    simpa using h
  · unfold delete_user_account
    induction rows with
    | nil => rfl
    | cons x xs ih =>
      by_cases hx : x.user = some u
      · have h1 : (!(decide (x.user = some u))) = false := by simp [hx]
        have h2 : x.user.isNone = false := by simp [hx]
        simp [List.filter_cons, h1, h2, ih]
      · have h1 : (!(decide (x.user = some u))) = true := by simp [hx]
        cases h2 : x.user.isNone <;> simp [List.filter_cons, h1, h2, ih]

/-- Witness for the delete_user_data frame theorem at a store holding a user
row for 7 and a channel row whose identifiers coincide with 7. -/
theorem delete_user_data_frame_witness :
    (∀ r ∈ delete_user_account rowsUser7 7, r.user ≠ some 7) ∧
    (delete_user_account rowsUser7 7).filter (fun r => r.user.isNone) =
      rowsUser7.filter (fun r => r.user.isNone) :=
  delete_user_data_frame rowsUser7 7

/-- C3: locale resolution precedence: the user row wins whenever one exists
(channel and guild rows ignored); otherwise the channel row; otherwise the
guild-default row (channel and user both null); otherwise the configured
default — and resolution is a total function, absence of any row silently
yielding the default rather than failing. Rows are assumed unique per scope key
(the table invariant of the spec) and locale values drawn from the supported
set, in particular nonempty. -/
theorem locale_resolution_precedence (rows : List LocaleRow) (d : String)
    (u : Nat) (c g : Option Nat) :
    (∀ r ∈ rows, r.user = some u →
      (∀ x ∈ rows, x.user = some u → x = r) → r.locale ≠ "" →
      resolve rows d u c g = r.locale) ∧
    ((∀ x ∈ rows, x.user ≠ some u) →
      ∀ cc, c = some cc → ∀ r ∈ rows, r.channel = some cc →
      (∀ x ∈ rows, x.channel = some cc → x = r) → r.locale ≠ "" →
      resolve rows d u c g = r.locale) ∧
    ((∀ x ∈ rows, x.user ≠ some u) →
      (∀ x ∈ rows, ∀ cc, c = some cc → x.channel ≠ some cc) →
      ∀ gg, g = some gg → ∀ r ∈ rows,
      r.guild = some gg → r.channel = none → r.user = none →
      (∀ x ∈ rows, x.guild = some gg → x.channel = none → x.user = none → x = r) →
      r.locale ≠ "" →
      resolve rows d u c g = r.locale) ∧
    ((∀ x ∈ rows, x.user ≠ some u) →
      (∀ x ∈ rows, ∀ cc, c = some cc → x.channel ≠ some cc) →
      (∀ x ∈ rows, ∀ gg, g = some gg →
        ¬(x.guild = some gg ∧ x.channel = none ∧ x.user = none)) →
      resolve rows d u c g = d) := by
  refine ⟨?_, ?_, ?_, ?_⟩
  · intro r hr hru huniq hne
    have hfind : rows.find? (fun r => decide (r.user = some u)) = some r :=
      find?_eq_some_of_unique _ _ _ hr (by simp [hru])
        (fun b hb hpb => huniq b hb (by simpa using hpb))
    have h1 : fetchUserLocale rows u = some r.locale := by
      simp only [fetchUserLocale]
      rw [hfind]
      rfl
    simp only [resolve, userChannelOrGuildLocale, h1, pythonOrString]
    rw [if_neg hne]
  · intro hno cc hc r hr hrc huniq hne
    have hu : rows.find? (fun r => decide (r.user = some u)) = none :=
      find?_eq_none_of_all _ _ fun x hx => by simp [hno x hx]
    have h1 : fetchUserLocale rows u = none := by
      simp only [fetchUserLocale]
      rw [hu]
      rfl
    have hcf : rows.find? (fun r => decide (r.channel = some cc)) = some r :=
      find?_eq_some_of_unique _ _ _ hr (by simp [hrc])
        (fun b hb hpb => huniq b hb (by simpa using hpb))
    have h2 : fetchChannelLocale rows (some cc) = some r.locale := by
      simp only [fetchChannelLocale]
      rw [hcf]
      rfl
    subst hc
    simp only [resolve, userChannelOrGuildLocale, h1, h2, pythonOrString]
    rw [if_neg hne]
  · intro hno hnoc gg hg r hr hg1 hc1 hu1 huniq hne
    have hu : rows.find? (fun r => decide (r.user = some u)) = none :=
      find?_eq_none_of_all _ _ fun x hx => by simp [hno x hx]
    have h1 : fetchUserLocale rows u = none := by
      simp only [fetchUserLocale]
      rw [hu]
      rfl
    have hcnone : fetchChannelLocale rows c = none := by
      cases c with
      | none => rfl
      | some cc =>
        have hfc : rows.find? (fun r => decide (r.channel = some cc)) = none :=
          find?_eq_none_of_all _ _ fun x hx => by simp [hnoc x hx cc rfl]
        simp only [fetchChannelLocale]
        rw [hfc]
        rfl
    have hgf : rows.find?
        (fun r => decide (r.guild = some gg ∧ r.channel = none ∧ r.user = none))
        = some r :=
      find?_eq_some_of_unique _ _ _ hr
        (decide_eq_true ⟨hg1, hc1, hu1⟩)
        (fun b hb hpb => by
          have hb3 : b.guild = some gg ∧ b.channel = none ∧ b.user = none :=
            of_decide_eq_true hpb
          exact huniq b hb hb3.1 hb3.2.1 hb3.2.2)
    have h3 : fetchGuildLocale rows (some gg) = some r.locale := by
      simp only [fetchGuildLocale]
      rw [hgf]
      rfl
    subst hg
    simp only [resolve, userChannelOrGuildLocale, h1, hcnone, h3, pythonOrString]
    rw [if_neg hne]
  · intro hno hnoc hnog
    have hu : rows.find? (fun r => decide (r.user = some u)) = none :=
      find?_eq_none_of_all _ _ fun x hx => by simp [hno x hx]
    have h1 : fetchUserLocale rows u = none := by
      simp only [fetchUserLocale]
      rw [hu]
      rfl
    have hcnone : fetchChannelLocale rows c = none := by
      cases c with
      | none => rfl
      | some cc =>
        have hfc : rows.find? (fun r => decide (r.channel = some cc)) = none :=
          find?_eq_none_of_all _ _ fun x hx => by simp [hnoc x hx cc rfl]
        simp only [fetchChannelLocale]
        rw [hfc]
        rfl
    have hgnone : fetchGuildLocale rows g = none := by
      cases g with
      | none => rfl
      | some gg =>
        have hfg : rows.find?
            (fun r => decide (r.guild = some gg ∧ r.channel = none ∧ r.user = none))
            = none :=
          find?_eq_none_of_all _ _ fun x hx =>
            decide_eq_false (hnog x hx gg rfl)
        simp only [fetchGuildLocale]
        rw [hfg]
        rfl
    simp only [resolve, userChannelOrGuildLocale, h1, hcnone, hgnone, pythonOrString]

/-- Witness for the precedence theorem: in a store holding a user row, a channel
row and a guild-default row, the user row wins. -/
theorem locale_resolution_precedence_witness :
    resolve rowsLoc "en_US" 1 (some 2) (some 3) = "de_DE" :=
  (locale_resolution_precedence rowsLoc "en_US" 1 (some 2) (some 3)).1
    ⟨some 1, none, none, "de_DE"⟩ (by decide) rfl (by decide) (by decide)

/-- C4 counterexample: a caller holding Manage Messages but not bot ownership.
The claim says the elevation check passes (the caller does not lack Manage
Messages) and the channel row is written; the command instead raises
MissingPermissions and writes nothing. -/
theorem channel_locale_requires_owner_cex :
    set_locale_command [] 7 1 (some 5) true false "en_US" =
      .error .missingPermissions ∧
    set_locale_command [] 7 1 (some 5) true false "en_US" ≠
      .ok (set_channel_locale [] 1 5 "en_US") :=
  ⟨rfl, fun h => Except.noConfusion h⟩

/-- C4 (amended): with a channel argument the command raises MissingPermissions
exactly when the caller lacks Manage Messages or is not the bot owner (the
source requires both elevations); when both checks pass the channel row is
upserted; an error aborts before any write reaches the store. -/
theorem set_locale_command_permission_gate (rows : List LocaleRow)
    (authorId guildId ch : Nat) (mm owner : Bool) (loc : String) :
    (set_locale_command rows authorId guildId (some ch) mm owner loc =
        .error .missingPermissions ↔ (mm = false ∨ owner = false)) ∧
    (mm = true → owner = true →
      set_locale_command rows authorId guildId (some ch) mm owner loc =
        .ok (set_channel_locale rows guildId ch loc)) := by
  cases mm <;> cases owner <;> simp [set_locale_command]

/-- Witness for the amended permission-gate theorem at a caller holding both
elevations. -/
theorem set_locale_command_permission_gate_witness :
    set_locale_command [] 7 1 (some 5) true true "en_US" =
      .ok (set_channel_locale [] 1 5 "en_US") :=
  (set_locale_command_permission_gate [] 7 1 5 true true "en_US").2 rfl rfl

/-- C8: for an argument with no integer parse and no member resolution, the
combined converter lands on the keyword strategy; that strategy returns the
most recent stream message, other than the invoking one, whose normalized
content (custom-emote tokens replaced by their bare names, then case-folded)
contains the case-folded argument as a substring, every more recent message
failing that test; and it fails with NotFound exactly when no stream message
passes the test. -/
theorem keyword_first_match (floorV : Nat) (ctx : Context) (arg : Argument)
    (h0 : arg.intBase0 = none) (h1 : arg.intVal = none) (h2 : arg.member = none) :
    messageConvert floorV ctx arg = keywordMessageConvert ctx arg ∧
    (∀ m, keywordMessageConvert ctx arg = .ok m →
      m.id ≠ ctx.message.id ∧
      containsSub (casefold arg.text) (normalize m.content) = true ∧
      ∃ l1 l2, ctx.history = l1 ++ m :: l2 ∧
        ∀ x ∈ l1,
          (x.id != ctx.message.id &&
            containsSub (casefold arg.text) (normalize x.content)) = false) ∧
    (keywordMessageConvert ctx arg = .error ⟨"Message not found."⟩ ↔
      ∀ x ∈ ctx.history,
        (x.id != ctx.message.id &&
          containsSub (casefold arg.text) (normalize x.content)) = false) := by
  refine ⟨?_, ?_, ?_⟩
  · simp [messageConvert, offsetMessageConvert, idMessageConvert, validateSnowflake,
      memberMessageConvert, h0, h1, h2]
  · intro m hm
    simp only [keywordMessageConvert] at hm
    obtain ⟨l1, l2, heq, hpm, hall⟩ := (searchForMessage_ok_iff _ _ _).mp hm
    simp only [Bool.and_eq_true, bne_iff_ne] at hpm
    exact ⟨hpm.1, hpm.2, l1, l2, heq, hall⟩
  · simp only [keywordMessageConvert]
    exact searchForMessage_error_iff _ _

/-- Witness for the keyword theorem: the argument `BLOB` (neither numeric nor a
member) is dispatched to the keyword strategy, which finds the message whose
content is a custom-emote token named `Blob` followed by plain text. -/
theorem keyword_first_match_witness :
    messageConvert 4194304 ctxKeyword argBlob = keywordMessageConvert ctxKeyword argBlob ∧
    keywordMessageConvert ctxKeyword argBlob = .ok msgEmote :=
  ⟨(keyword_first_match 4194304 ctxKeyword argBlob rfl rfl rfl).1, rfl⟩

/-- C10 counterexample: a message carrying the webhook identifier 0. The claim
says the webhook id is then used as the user-scope key; Python truthiness makes
the code fall back to the author's id 7 instead. -/
theorem webhook_zero_key_cex :
    (⟨7, some 0, 1, none⟩ : IncomingMessage).webhookId = some 0 ∧
    localeUserKey ⟨7, some 0, 1, none⟩ = 7 ∧ (7 : Nat) ≠ 0 :=
  ⟨rfl, rfl, by decide⟩

/-- C10 (amended): the user-scope key of locale resolution is the webhook
identifier when one is present and nonzero; when it is absent — or zero, which
Python truthiness treats as absent — the author's identifier is used; and with
a nonzero webhook id, resolution against a store holding a user row for that id
returns that row's locale. -/
theorem locale_user_key_webhook (d : String) (m : IncomingMessage) :
    (∀ w, m.webhookId = some w → w ≠ 0 → localeUserKey m = w) ∧
    (m.webhookId = none → localeUserKey m = m.authorId) ∧
    (m.webhookId = some 0 → localeUserKey m = m.authorId) ∧
    (∀ w loc, m.webhookId = some w → w ≠ 0 → loc ≠ "" →
      resolveLocale [⟨some w, none, none, loc⟩] d m = loc) := by
  refine ⟨?_, ?_, ?_, ?_⟩
  · intro w hw h0
    simp [localeUserKey, hw, h0]
  · intro hw
    simp [localeUserKey, hw]
  · intro hw
    simp [localeUserKey, hw]
  · intro w loc hw h0 hl
    simp [resolveLocale, resolve, userChannelOrGuildLocale, fetchUserLocale,
      localeUserKey, hw, h0, List.find?, pythonOrString, hl]

/-- Witness for the webhook-key theorem at a message carrying the nonzero
webhook identifier 9. -/
theorem locale_user_key_webhook_witness :
    localeUserKey ⟨7, some 9, 1, none⟩ = 9 :=
  (locale_user_key_webhook "en_US" ⟨7, some 9, 1, none⟩).1 9 rfl (by decide)

end EmoteBot
